import Mathlib

/-!
Verification of the carbot control/coordination core.

Shallow embedding of the Python sources under `src/carbot/`:
time values (Python floats from `monotonic()`) are modelled as rationals,
integers as `Int`/`Nat`, fallible operations as `Except`, and the effects of
stateful methods as explicit state passing together with output lists that
record the calls made on the underlying sinks/controllers.  Blocking waits
(condition-variable loops) are modelled as recursion over a finite trace of
the states the waiter observes at each wake-up.
-/

set_option autoImplicit false

namespace Carbot

/-! ### carbot/control/commands.py -/

/-- `MotorCommand{throttle, steer_differential, ts}` (frozen dataclass). -/
structure MotorCommand where
  throttle : Int
  steer_differential : Int
  ts : ℚ
deriving DecidableEq, Repr

/-- `MotorCommand.stop()`: throttle 0, steer 0, at the given monotonic time. -/
def MotorCommand.stop (now : ℚ) : MotorCommand :=
  { throttle := 0, steer_differential := 0, ts := now }

/-- `ServoCommand{pan, tilt, ts}` (frozen dataclass). -/
structure ServoCommand where
  pan : Int
  tilt : Int
  ts : ℚ
deriving DecidableEq, Repr

/-! ### carbot/control/mux.py

`SourceEntry` holds a `Source`, whose only use inside `pick()` is the single
call `e.source.latest()`; we therefore embed the entry together with the
snapshot that this call returns at pick time (`latestVal`).  The
`getattr(cmd, "ts", None)` access is embedded as an explicit `getTs` function
passed to `pick`, returning `none` exactly when the command type has no `ts`
attribute. -/

structure SourceEntry (T : Type) where
  latestVal : Option T
  max_age_s : ℚ
  priority : Int
  name : String := ""

/-- Stable insertion of an entry into a list sorted by ascending priority:
`x` skips only entries with strictly smaller priority and lands before the
first entry whose priority is `>= x.priority`.  Since `sortEntries` inserts
earlier-listed entries into the sorted suffix, equal-priority entries keep
their original relative order — the stability Python guarantees for
`sorted(entries, key=lambda e: e.priority)`.  (`sortEntries_eq_insertionSort`
below identifies this with Mathlib's `List.insertionSort`, whose stability
is `List.pair_sublist_insertionSort`.) -/
def insertByPriority {T : Type} (x : SourceEntry T) :
    List (SourceEntry T) → List (SourceEntry T)
  | [] => [x]
  | y :: ys =>
    if y.priority < x.priority then y :: insertByPriority x ys
    else x :: y :: ys

/-- `sorted(entries, key=lambda e: e.priority)` in `PriorityMux.__init__`:
ascending priority, stable on ties. -/
def sortEntries {T : Type} : List (SourceEntry T) → List (SourceEntry T)
  | [] => []
  | x :: xs => insertByPriority x (sortEntries xs)

/-- The loop body of `PriorityMux.pick` over the (already sorted) entry list:
skip an absent source, return a command with no `ts` attribute immediately,
return a timestamped command iff `now - ts <= max_age_s`, else continue. -/
def pickSorted {T : Type} (getTs : T → Option ℚ) (now : ℚ) :
    List (SourceEntry T) → Option T
  | [] => none
  | e :: rest =>
    match e.latestVal with
    | none => pickSorted getTs now rest
    | some cmd =>
      match getTs cmd with
      | none => some cmd
      | some ts =>
        if now - ts ≤ e.max_age_s then some cmd
        else pickSorted getTs now rest

/-- `PriorityMux.pick()`: entries are sorted ascending by priority at
construction, then scanned in order. -/
def PriorityMux.pick {T : Type} (getTs : T → Option ℚ) (now : ℚ)
    (entries : List (SourceEntry T)) : Option T :=
  pickSorted getTs now (sortEntries entries)

/-- An entry qualifies ("fresh") when its source has a value and that value
either has no `ts` attribute or is at most `max_age_s` old. -/
def entryFresh {T : Type} (getTs : T → Option ℚ) (now : ℚ)
    (e : SourceEntry T) : Bool :=
  match e.latestVal with
  | none => false
  | some cmd =>
    match getTs cmd with
    | none => true
    | some ts => decide (now - ts ≤ e.max_age_s)

/-! ### carbot/control/loop.py — ControlLoop.tick

The configuration flags record which optional collaborators exist
(`self._motor`, `self._servo`, `self._motor_mux`, `self._servo_mux`) and
whether `motor_failsafe_stop` is set.  One `tick()` consumes a `TickInput`:
the values the two muxes' `pick()` calls return on this tick, plus the
monotonic time used by `MotorCommand.stop()` should the failsafe fire.  The
sink calls made during the tick are recorded in a `TickOutput`. -/

structure LoopCfg where
  motorSink : Bool
  servoSink : Bool
  motorMux : Bool
  servoMux : Bool
  motor_failsafe_stop : Bool
deriving DecidableEq, Repr

/-- `self._last_motor` and `self._last_servo` of a `ControlLoop`. -/
structure LoopState where
  lastMotor : Option (Int × Int)
  lastServo : Option (Int × Int)
deriving DecidableEq, Repr

structure TickInput where
  motorPick : Option MotorCommand
  servoPick : Option ServoCommand
  now : ℚ
deriving DecidableEq, Repr

/-- Calls made on the sinks during one tick: arguments of `drive`,
`set_pan`, `set_tilt`, in call order. -/
structure TickOutput where
  drives : List (Int × Int)
  pans : List Int
  tilts : List Int
deriving DecidableEq, Repr

/-- The motor command `tick()` acts on: the mux result, with the failsafe
stop substituted when the mux yields absent and `motor_failsafe_stop` is
enabled. -/
def resolveMotor (cfg : LoopCfg) (inp : TickInput) : Option MotorCommand :=
  match inp.motorPick with
  | some c => some c
  | none => if cfg.motor_failsafe_stop then some (MotorCommand.stop inp.now) else none

/-- `ControlLoop.tick()`. -/
def ControlLoop.tick (cfg : LoopCfg) (inp : TickInput) (st : LoopState) :
    LoopState × TickOutput :=
  -- MOTOR section
  let motorRes : Option (Int × Int) × List (Int × Int) :=
    if cfg.motorSink ∧ cfg.motorMux then
      match resolveMotor cfg inp with
      | none => (st.lastMotor, [])
      | some c =>
        let pair := (c.throttle, c.steer_differential)
        if some pair ≠ st.lastMotor then (some pair, [pair])
        else (st.lastMotor, [])
    else (st.lastMotor, [])
  -- SERVO section
  let servoRes : Option (Int × Int) × List Int × List Int :=
    if cfg.servoSink ∧ cfg.servoMux then
      match inp.servoPick with
      | none => (st.lastServo, [], [])
      | some c =>
        let pair := (c.pan, c.tilt)
        if some pair ≠ st.lastServo then (some pair, [c.pan], [c.tilt])
        else (st.lastServo, [], [])
    else (st.lastServo, [], [])
  ({ lastMotor := motorRes.1, lastServo := servoRes.1 },
   { drives := motorRes.2, pans := servoRes.2.1, tilts := servoRes.2.2 })

/-- Successive `tick()` calls, collecting the per-tick sink outputs. -/
def ControlLoop.runTicks (cfg : LoopCfg) (st : LoopState) :
    List TickInput → LoopState × List TickOutput
  | [] => (st, [])
  | inp :: rest =>
    let step := ControlLoop.tick cfg inp st
    let tail := ControlLoop.runTicks cfg step.1 rest
    (tail.1, step.2 :: tail.2)

/-! ### carbot/vision/latest_store.py — LatestStore.wait_newer

`wait_newer` loops on a condition variable.  We embed one run of the loop as
recursion over the finite trace of states the waiter observes each time it
holds the lock (on entry, and again after every `self._cond.wait(...)`
return): the stop event, the slot `(value, timestamp_ns)`, and the value of
`time.monotonic()` used to compute `remaining`.  `deadline` is fixed at call
entry (`monotonic() + timeout_s`).  The result is `none` when the trace ends
with the waiter still blocked, and `some r` once the code returns `r`. -/

structure StoreObs (T : Type) where
  stopSet : Bool
  value : Option T
  timestampNs : Int
  now : ℚ

def LatestStore.waitNewer {T : Type} (lastTs : Int) (deadline : ℚ) :
    List (StoreObs T) → Option (Option T × Int)
  | [] => none
  | o :: rest =>
    if o.stopSet then some (none, lastTs)
    else if o.value.isSome ∧ o.timestampNs ≠ lastTs then some (o.value, o.timestampNs)
    else if deadline - o.now ≤ 0 then some (none, lastTs)
    else LatestStore.waitNewer lastTs deadline rest

/-! ### Driver lifecycle (start / stop / close)

For the lifecycle claims only three pieces of a driver's state matter:
whether `self._thread` is not `None`, the `self._closed` flag (ultrasonic and
infrared only — `CameraDriver` has no such flag), and how many times the
underlying controller's `close()` has been invoked (`closeCalls`, recording
the effect of `self._ctl.close()`).  `start()` can raise, so it returns
`Except String`. -/

structure SensorDriverState where
  threadRunning : Bool
  closed : Bool
  closeCalls : Nat
deriving DecidableEq, Repr

/-- Fresh driver right after `__init__`. -/
def SensorDriverState.init : SensorDriverState :=
  { threadRunning := false, closed := false, closeCalls := 0 }

/-- `UltrasonicDriver._close_controller` / `InfraredDriver._close_controller`:
return if `self._closed` is already set, else set it and call
`self._ctl.close()`. -/
def closeController (st : SensorDriverState) : SensorDriverState :=
  if st.closed then st
  else { st with closed := true, closeCalls := st.closeCalls + 1 }

/-- `UltrasonicDriver.stop()`: signal the thread, join it, drop the thread
reference, then `_close_controller()`. -/
def UltrasonicDriver.stop (st : SensorDriverState) : SensorDriverState :=
  closeController { st with threadRunning := false }

/-- `UltrasonicDriver.close()` delegates to `stop()`. -/
def UltrasonicDriver.close (st : SensorDriverState) : SensorDriverState :=
  UltrasonicDriver.stop st

/-- `InfraredDriver.stop()` (same shape as the ultrasonic driver). -/
def InfraredDriver.stop (st : SensorDriverState) : SensorDriverState :=
  closeController { st with threadRunning := false }

/-- `InfraredDriver.close()` delegates to `stop()`. -/
def InfraredDriver.close (st : SensorDriverState) : SensorDriverState :=
  InfraredDriver.stop st

/-- `UltrasonicDriver.start()`: raises if already started or already closed,
else spawns the polling thread. -/
def UltrasonicDriver.start (st : SensorDriverState) :
    Except String SensorDriverState :=
  if st.threadRunning then .error "UltrasonicDriver already started"
  else if st.closed then .error "UltrasonicDriver is closed"
  else .ok { st with threadRunning := true }

/-- `InfraredDriver.start()`: raises if already started or already closed. -/
def InfraredDriver.start (st : SensorDriverState) :
    Except String SensorDriverState :=
  if st.threadRunning then .error "InfraredDriver already started"
  else if st.closed then .error "InfraredDriver is closed"
  else .ok { st with threadRunning := true }

/-- `CameraDriver` has no `_closed` flag: only the thread reference and the
count of `self._ctl.close()` invocations. -/
structure CameraDriverState where
  threadRunning : Bool
  closeCalls : Nat
deriving DecidableEq, Repr

def CameraDriverState.init : CameraDriverState :=
  { threadRunning := false, closeCalls := 0 }

/-- `CameraDriver.stop()`: signal, join, drop the thread reference, then call
`self._ctl.close()` unconditionally (no guard flag). -/
def CameraDriver.stop (st : CameraDriverState) : CameraDriverState :=
  { st with threadRunning := false, closeCalls := st.closeCalls + 1 }

/-- `CameraDriver.close()` delegates to `stop()`. -/
def CameraDriver.close (st : CameraDriverState) : CameraDriverState :=
  CameraDriver.stop st

/-- `CameraDriver.start()`: raises only if already started — there is no
closed check. -/
def CameraDriver.start (st : CameraDriverState) :
    Except String CameraDriverState :=
  if st.threadRunning then .error "CameraDriver already started"
  else .ok { st with threadRunning := true }

/-- Boolean success test for an embedded method that can raise. -/
def exceptOk {A : Type} : Except String A → Bool
  | .ok _ => true
  | .error _ => false

/-! ### Polling loops and wait_next (ultrasonic_driver.py, infrared_driver.py)

The polling thread's loop body is embedded as a step function over the
driver's published state `(seq, latest)`; one run of the loop consumes a
list of readings (for the ultrasonic driver a reading is `none` when
`read_distance()` raised — that cycle publishes nothing).  `wait_next` is a
condition-variable loop embedded, like `wait_newer` above, as recursion over
the trace of states observed at each wake-up. -/

/-- `InfraredSample` (NamedTuple). -/
structure InfraredSample where
  left : Nat
  middle : Nat
  right : Nat
  bits : Nat
  seq : Nat
deriving DecidableEq, Repr

/-- Published state `(self._seq, self._latest)` of the ultrasonic driver. -/
structure UltraState where
  seq : Nat
  latest : Option ℚ
deriving DecidableEq, Repr

/-- One cycle of `UltrasonicDriver._loop`: a failed `read_distance()` only
backs off (publishes nothing); a successful read bumps `seq` and publishes
the distance under the condition variable. -/
def UltrasonicDriver.pollStep (st : UltraState) (reading : Option ℚ) : UltraState :=
  match reading with
  | none => st
  | some dist => { seq := st.seq + 1, latest := some dist }

/-- Running `UltrasonicDriver._loop` over a list of readings. -/
def UltrasonicDriver.runPoll (st : UltraState) : List (Option ℚ) → UltraState
  | [] => st
  | r :: rs => UltrasonicDriver.runPoll (UltrasonicDriver.pollStep st r) rs

/-- The `seq` values published (in order) while running the loop over the
given readings. -/
def UltrasonicDriver.publishedSeqs (st : UltraState) : List (Option ℚ) → List Nat
  | [] => []
  | none :: rs => UltrasonicDriver.publishedSeqs st rs
  | some dist :: rs =>
    (st.seq + 1) :: UltrasonicDriver.publishedSeqs { seq := st.seq + 1, latest := some dist } rs

/-- Published state `(self._seq, self._latest)` of the infrared driver. -/
structure IrState where
  seq : Nat
  latest : Option InfraredSample
deriving DecidableEq, Repr

/-- One cycle of `InfraredDriver._loop`: read the three channels, compute
`bits = (l << 2) | (m << 1) | r`, bump `seq`, publish the sample. -/
def InfraredDriver.pollStep (st : IrState) (l m r : Nat) : IrState :=
  let bits := (l <<< 2) ||| (m <<< 1) ||| r
  { seq := st.seq + 1,
    latest := some { left := l, middle := m, right := r, bits := bits, seq := st.seq + 1 } }

/-- Running `InfraredDriver._loop` over a list of channel readings. -/
def InfraredDriver.runPoll (st : IrState) : List (Nat × Nat × Nat) → IrState
  | [] => st
  | (l, m, r) :: rs => InfraredDriver.runPoll (InfraredDriver.pollStep st l m r) rs

/-- The `seq` values published (in order) while running the infrared loop
over the given channel readings (every cycle publishes). -/
def InfraredDriver.publishedSeqs (st : IrState) : List (Nat × Nat × Nat) → List Nat
  | [] => []
  | (l, m, r) :: rs =>
    (st.seq + 1) :: InfraredDriver.publishedSeqs (InfraredDriver.pollStep st l m r) rs

/-- A state observed by a `wait_next` caller at one wake-up: the stop event,
the published `(seq, latest)` pair, and `monotonic()`. -/
structure DriverObs (L : Type) where
  stopSet : Bool
  seq : Nat
  latest : Option L
  now : ℚ

/-- How one run of a driver's `wait_next` loop ended: the loop condition
failed with the stop event set (`stopped`), it failed because `seq` moved off
`last_seq` with the stop event clear (`advanced`), or the body broke out on
`remaining <= 0` (`timedOut`).  Each carries the observation in hand at
exit, from which the return value is computed. -/
inductive WaitOutcome (L : Type) where
  | advanced (o : DriverObs L)
  | stopped (o : DriverObs L)
  | timedOut (o : DriverObs L)

/-- The observation in hand when the `wait_next` loop exited. -/
def WaitOutcome.obs {L : Type} : WaitOutcome L → DriverObs L
  | .advanced o => o
  | .stopped o => o
  | .timedOut o => o

/-- The loop body's timeout test: with `timeout is None` (`deadline = none`)
the code waits with no deadline and never breaks; otherwise it breaks when
`remaining = deadline - monotonic() <= 0`. -/
def deadlineElapsed : Option ℚ → ℚ → Bool
  | none, _ => false
  | some d, now => decide (d - now ≤ 0)

/-- The `while not self._stop.is_set() and self._seq == last_seq` loop shared
verbatim by `InfraredDriver.wait_next` and `UltrasonicDriver.wait_next`.
`deadline` is `none` when `timeout is None` (wait without deadline). -/
def waitNextGo {L : Type} (lastSeq : Nat) (deadline : Option ℚ) :
    List (DriverObs L) → Option (WaitOutcome L)
  | [] => none
  | o :: rest =>
    if o.stopSet then some (.stopped o)
    else if o.seq ≠ lastSeq then some (.advanced o)
    else if deadlineElapsed deadline o.now then some (.timedOut o)
    else waitNextGo lastSeq deadline rest

/-- `wait_next(last_seq, timeout)` entry: under the lock, a `last_seq` of
`None` defaults to the current `self._seq` (read from the first observation,
taken at the same lock acquisition as the first loop test). -/
def waitNextFrom {L : Type} (lastSeq : Option Nat) (deadline : Option ℚ)
    (trace : List (DriverObs L)) : Option (WaitOutcome L) :=
  match trace with
  | [] => none
  | o :: _ => waitNextGo (lastSeq.getD o.seq) deadline trace

/-- `InfraredDriver.wait_next` returns `self._latest` on loop exit. -/
def InfraredDriver.waitNextValue : WaitOutcome InfraredSample → Option InfraredSample
  | .advanced o => o.latest
  | .stopped o => o.latest
  | .timedOut o => o.latest

/-- `UltrasonicDriver.wait_next` returns `None` when `self._latest is None`,
else `(self._seq, self._latest)`, on loop exit. -/
def UltrasonicDriver.waitNextValue : WaitOutcome ℚ → Option (Nat × ℚ)
  | .advanced o => o.latest.map (fun dist => (o.seq, dist))
  | .stopped o => o.latest.map (fun dist => (o.seq, dist))
  | .timedOut o => o.latest.map (fun dist => (o.seq, dist))

/-! ### carbot/drivers/motor_driver.py -/

/-- The fields of `MotorConfig` that `MotorDriver` uses. -/
structure MotorConfig where
  max_power : Int
  left_scale : ℚ
  right_scale : ℚ
deriving DecidableEq, Repr

/-- Python's `int()` on a float/rational: truncation toward zero. -/
def pyInt (q : ℚ) : Int := if 0 ≤ q then ⌊q⌋ else ⌈q⌉

/-- `MotorDriver._clamp`: `max(-max_pow, min(power, max_pow))`. -/
def MotorDriver.clampPower (cfg : MotorConfig) (power : Int) : Int :=
  max (-cfg.max_power) (min power cfg.max_power)

/-- `MotorDriver.drive(throttle, steer_differential)`: the scales apply only
when `steer_differential != 0`; each side is scaled, truncated by `int()`,
clamped, and the four wheel powers `(l, l, r, r)` are sent to
`set_wheels`. -/
def MotorDriver.drive (cfg : MotorConfig) (throttle steer_differential : Int) :
    Int × Int × Int × Int :=
  let r_scale : ℚ := if steer_differential ≠ 0 then cfg.right_scale else 1
  let l_scale : ℚ := if steer_differential ≠ 0 then cfg.left_scale else 1
  let rpow := MotorDriver.clampPower cfg
    (pyInt (r_scale * ((throttle : ℚ) + (steer_differential : ℚ))))
  let lpow := MotorDriver.clampPower cfg
    (pyInt (l_scale * ((throttle : ℚ) - (steer_differential : ℚ))))
  (lpow, lpow, rpow, rpow)

/-! ### carbot/inputs/terminal_kb_teleop.py — key decoding -/

/-- The ESC byte `"\x1b"`. -/
def escChar : Char := '\x1b'

/-- `TerminalKeyboardTeleop._pop_key(buf)`: returns the decoded key (if any)
and the remaining buffer.  Strings are embedded as `List Char`. -/
def TerminalKeyboardTeleop.popKey (buf : List Char) : Option (List Char) × List Char :=
  match buf with
  | [] => (none, buf)
  | c :: rest =>
    if c = escChar then
      match rest with
      | b :: d :: rest2 =>
        if b = '[' ∧ (d = 'A' ∨ d = 'B' ∨ d = 'C' ∨ d = 'D') then
          (some [c, b, d], rest2)
        else (some [escChar], rest)
      | _ => (none, buf)
    else (some [c], rest)

/-! ### Teleop latest_motor (terminal_kb_teleop.py, usb_kb_teleop.py) -/

/-- The state both teleop variants consult in `latest_motor()`:
`self._latest_motor` and `self._last_motor_input_t`. -/
structure TeleopState where
  latestMotor : Option MotorCommand
  lastMotorInputT : ℚ
deriving DecidableEq, Repr

/-- `TerminalKeyboardTeleop.latest_motor()`: `None` if no command was ever
produced; otherwise the deadman check substitutes a fresh stop command when
`monotonic() - self._last_motor_input_t >= deadman_s`. -/
def TerminalKeyboardTeleop.latestMotor (deadman_s now : ℚ) (st : TeleopState) :
    Option MotorCommand :=
  match st.latestMotor with
  | none => none
  | some c =>
    if deadman_s ≤ now - st.lastMotorInputT then some (MotorCommand.stop now)
    else some c

/-- `UsbKeyboardTeleop.latest_motor()`: same logic as the terminal variant. -/
def UsbKeyboardTeleop.latestMotor (deadman_s now : ℚ) (st : TeleopState) :
    Option MotorCommand :=
  match st.latestMotor with
  | none => none
  | some c =>
    if deadman_s ≤ now - st.lastMotorInputT then some (MotorCommand.stop now)
    else some c

/-! ## Helper lemmas -/

theorem clampPower_mem (cfg : MotorConfig) (h : 0 ≤ cfg.max_power) (p : Int) :
    -cfg.max_power ≤ MotorDriver.clampPower cfg p ∧
      MotorDriver.clampPower cfg p ≤ cfg.max_power := by
  refine ⟨le_max_left _ _, max_le (neg_le_self h) (min_le_right _ _)⟩

theorem insertByPriority_perm {T : Type} (x : SourceEntry T) (l : List (SourceEntry T)) :
    List.Perm (insertByPriority x l) (x :: l) := by
  induction l with
  | nil => simp [insertByPriority]
  | cons y ys ih =>
    by_cases h : y.priority < x.priority
    · simp only [insertByPriority, if_pos h]
      exact (ih.cons y).trans (List.Perm.swap x y ys)
    · simp [insertByPriority, if_neg h]

theorem mem_insertByPriority {T : Type} {x z : SourceEntry T} {l : List (SourceEntry T)}
    (h : z ∈ insertByPriority x l) : z = x ∨ z ∈ l := by
  have := (insertByPriority_perm x l).mem_iff.mp h
  simpa using this

theorem insertByPriority_sorted {T : Type} (x : SourceEntry T) (l : List (SourceEntry T))
    (h : l.Sorted (fun a b => a.priority ≤ b.priority)) :
    (insertByPriority x l).Sorted (fun a b => a.priority ≤ b.priority) := by
  induction l with
  | nil => simp [insertByPriority]
  | cons y ys ih =>
    rw [List.sorted_cons] at h
    by_cases hyx : y.priority < x.priority
    · simp only [insertByPriority, if_pos hyx]
      rw [List.sorted_cons]
      refine ⟨?_, ih h.2⟩
      intro b hb
      rcases mem_insertByPriority hb with rfl | hb
      · exact le_of_lt hyx
      · exact h.1 b hb
    · simp only [insertByPriority, if_neg hyx]
      rw [List.sorted_cons]
      refine ⟨?_, ?_⟩
      · intro b hb
        rcases List.mem_cons.mp hb with rfl | hb
        · omega
        · exact le_trans (by omega) (h.1 b hb)
      · rw [List.sorted_cons]
        exact h

theorem sortEntries_perm {T : Type} (l : List (SourceEntry T)) :
    List.Perm (sortEntries l) l := by
  induction l with
  | nil => simp [sortEntries]
  | cons x xs ih =>
    exact (insertByPriority_perm x (sortEntries xs)).trans (ih.cons x)

theorem sortEntries_sorted {T : Type} (l : List (SourceEntry T)) :
    (sortEntries l).Sorted (fun a b => a.priority ≤ b.priority) := by
  induction l with
  | nil => simp [sortEntries]
  | cons x xs ih => exact insertByPriority_sorted x (sortEntries xs) ih

theorem insertByPriority_eq_orderedInsert {T : Type} (x : SourceEntry T)
    (l : List (SourceEntry T)) :
    insertByPriority x l =
      List.orderedInsert (fun a b => a.priority ≤ b.priority) x l := by
  induction l with
  | nil => rfl
  | cons y ys ih =>
    by_cases h : y.priority < x.priority
    · rw [insertByPriority, if_pos h, List.orderedInsert,
        if_neg (show ¬ x.priority ≤ y.priority by omega), ih]
    · rw [insertByPriority, if_neg h, List.orderedInsert,
        if_pos (show x.priority ≤ y.priority by omega)]

theorem sortEntries_eq_insertionSort {T : Type} (l : List (SourceEntry T)) :
    sortEntries l = List.insertionSort (fun a b => a.priority ≤ b.priority) l := by
  induction l with
  | nil => rfl
  | cons x xs ih =>
    rw [sortEntries, insertByPriority_eq_orderedInsert, ih, List.insertionSort]

/-- Stability of the model's sort, inherited from Mathlib's insertion sort:
a pair of entries listed in this order with nondecreasing priorities stays
in this order after sorting; on priority ties the original (construction)
order is preserved, as Python's stable `sorted` guarantees. -/
theorem sortEntries_stable {T : Type} {a b : SourceEntry T}
    {l : List (SourceEntry T)} (hab : a.priority ≤ b.priority)
    (h : List.Sublist [a, b] l) : List.Sublist [a, b] (sortEntries l) := by
  rw [sortEntries_eq_insertionSort]
  exact List.pair_sublist_insertionSort hab h

theorem pickSorted_eq_find {T : Type} (getTs : T → Option ℚ) (now : ℚ)
    (l : List (SourceEntry T)) :
    pickSorted getTs now l =
      (l.find? (entryFresh getTs now)).bind SourceEntry.latestVal := by
  induction l with
  | nil => rfl
  | cons e rest ih =>
    rw [List.find?]
    match hv : e.latestVal with
    | none =>
      simp only [pickSorted, hv, entryFresh]
      exact ih
    | some cmd =>
      match ht : getTs cmd with
      | none =>
        simp [pickSorted, hv, ht, entryFresh]
      | some ts =>
        by_cases hage : now - ts ≤ e.max_age_s
        · simp [pickSorted, hv, ht, entryFresh, hage]
        · simp only [pickSorted, hv, ht, entryFresh, if_neg hage, decide_eq_true_eq]
          rw [decide_eq_false hage]
          exact ih

/-! ## Claims -/

/-- C8: `MotorDriver` with `max_power=2000`, `left_scale=1.0`,
`right_scale=1.0`: `drive(1800, 500)` commands the right wheels with power
2000 (2300 clamped to `max_power`) and the left wheels with 1300; in
general each side's power is scaled, truncated, then clamped into
`[-max_power, max_power]`. -/
theorem motor_drive_scale_clamp :
    MotorDriver.drive { max_power := 2000, left_scale := 1, right_scale := 1 } 1800 500
        = (1300, 1300, 2000, 2000) ∧
    ∀ (cfg : MotorConfig) (throttle steer : Int), 0 ≤ cfg.max_power →
      ∃ lpow rpow,
        MotorDriver.drive cfg throttle steer = (lpow, lpow, rpow, rpow) ∧
        lpow = MotorDriver.clampPower cfg
          (pyInt ((if steer ≠ 0 then cfg.left_scale else 1) * ((throttle : ℚ) - (steer : ℚ)))) ∧
        rpow = MotorDriver.clampPower cfg
          (pyInt ((if steer ≠ 0 then cfg.right_scale else 1) * ((throttle : ℚ) + (steer : ℚ)))) ∧
        -cfg.max_power ≤ lpow ∧ lpow ≤ cfg.max_power ∧
        -cfg.max_power ≤ rpow ∧ rpow ≤ cfg.max_power := by
  constructor
  · show (MotorDriver.clampPower _ _, MotorDriver.clampPower _ _,
          MotorDriver.clampPower _ _, MotorDriver.clampPower _ _) = _
    norm_num [MotorDriver.clampPower, pyInt]
  · intro cfg throttle steer h
    refine ⟨_, _, rfl, rfl, rfl, ?_⟩
    have hl := clampPower_mem cfg h
      (pyInt ((if steer ≠ 0 then cfg.left_scale else 1) * ((throttle : ℚ) - (steer : ℚ))))
    have hr := clampPower_mem cfg h
      (pyInt ((if steer ≠ 0 then cfg.right_scale else 1) * ((throttle : ℚ) + (steer : ℚ))))
    exact ⟨hl.1, hl.2, hr.1, hr.2⟩

/-- Witness for C8 at `max_power = 2000`, scales 1, `drive(1800, 500)`. -/
theorem motor_drive_scale_clamp_witness :
    ∃ lpow rpow,
      MotorDriver.drive { max_power := 2000, left_scale := 1, right_scale := 1 } 1800 500
          = (lpow, lpow, rpow, rpow) ∧
      lpow = MotorDriver.clampPower { max_power := 2000, left_scale := 1, right_scale := 1 }
        (pyInt ((if (500 : Int) ≠ 0 then (1 : ℚ) else 1) * ((1800 : ℚ) - (500 : ℚ)))) ∧
      rpow = MotorDriver.clampPower { max_power := 2000, left_scale := 1, right_scale := 1 }
        (pyInt ((if (500 : Int) ≠ 0 then (1 : ℚ) else 1) * ((1800 : ℚ) + (500 : ℚ)))) ∧
      -(2000 : Int) ≤ lpow ∧ lpow ≤ 2000 ∧ -(2000 : Int) ≤ rpow ∧ rpow ≤ 2000 :=
  motor_drive_scale_clamp.2 { max_power := 2000, left_scale := 1, right_scale := 1 }
    1800 500 (by norm_num)

/-- C9: `_pop_key` on buffer `"\x1b[A"` produces one directional token
consuming all three bytes and leaving an empty remainder; on `"\x1b["` it
produces no token and leaves the buffer intact; a printable character at the
head of the buffer is produced as its own one-byte token. -/
theorem pop_key_decode :
    TerminalKeyboardTeleop.popKey [escChar, '[', 'A'] = (some [escChar, '[', 'A'], []) ∧
    TerminalKeyboardTeleop.popKey [escChar, '['] = (none, [escChar, '[']) ∧
    ∀ (c : Char) (rest : List Char), 32 ≤ c.toNat → c.toNat ≤ 126 →
      TerminalKeyboardTeleop.popKey (c :: rest) = (some [c], rest) := by
  refine ⟨by decide, by decide, ?_⟩
  intro c rest h1 _h2
  have hne : ¬ c = escChar := by
    intro he
    subst he
    revert h1
    decide
  simp [TerminalKeyboardTeleop.popKey, hne]

/-- Witness for C9's printable-character clause at `'a'`. -/
theorem pop_key_decode_witness :
    TerminalKeyboardTeleop.popKey ['a', 'b'] = (some ['a'], ['b']) :=
  pop_key_decode.2.2 'a' ['b'] (by decide) (by decide)

/-- C10: while no motor command has ever been produced, `latest_motor()` of
both teleop variants returns absent regardless of elapsed time — never a
synthesized stop; once a command exists, the stop substitution happens
exactly when the input time is at least `deadman_s` old. -/
theorem teleop_latest_motor_absent :
    (∀ (deadman_s now : ℚ) (st : TeleopState), st.latestMotor = none →
      TerminalKeyboardTeleop.latestMotor deadman_s now st = none ∧
      UsbKeyboardTeleop.latestMotor deadman_s now st = none) ∧
    (∀ (deadman_s now : ℚ) (st : TeleopState) (c : MotorCommand),
      st.latestMotor = some c →
      TerminalKeyboardTeleop.latestMotor deadman_s now st =
        (if deadman_s ≤ now - st.lastMotorInputT then some (MotorCommand.stop now)
         else some c) ∧
      UsbKeyboardTeleop.latestMotor deadman_s now st =
        (if deadman_s ≤ now - st.lastMotorInputT then some (MotorCommand.stop now)
         else some c)) := by
  constructor
  · intro d now st h
    simp [TerminalKeyboardTeleop.latestMotor, UsbKeyboardTeleop.latestMotor, h]
  · intro d now st c h
    simp [TerminalKeyboardTeleop.latestMotor, UsbKeyboardTeleop.latestMotor, h]

/-- Witness for C10: a teleop that never produced a command, queried far past
any deadman window, still yields absent. -/
theorem teleop_latest_motor_absent_witness :
    TerminalKeyboardTeleop.latestMotor (1/2) 1000 { latestMotor := none, lastMotorInputT := 0 }
        = none ∧
    UsbKeyboardTeleop.latestMotor (1/2) 1000 { latestMotor := none, lastMotorInputT := 0 }
        = none :=
  teleop_latest_motor_absent.1 (1/2) 1000 { latestMotor := none, lastMotorInputT := 0 } rfl

/-- C5 counterexample: on a fresh `CameraDriver`, calling `stop()` twice
invokes the underlying controller's `close()` twice — the claimed
"at most once over the driver's lifetime" fails for `CameraDriver`, whose
`stop()` has no `_closed` guard. -/
theorem camera_double_close_counterexample :
    ¬ (CameraDriver.stop (CameraDriver.stop CameraDriverState.init)).closeCalls ≤ 1 := by
  decide

/-- C5 (amended): a second `stop()`/`close()` raises no error on any driver;
for `UltrasonicDriver` and `InfraredDriver` it is a no-op (so the underlying
`close()` runs at most once over the lifetime), while `CameraDriver`
invokes the underlying `close()` once per `stop()`/`close()` call, hence
twice after a double stop. -/
theorem driver_close_idempotence :
    (∀ st : SensorDriverState,
      UltrasonicDriver.stop (UltrasonicDriver.stop st) = UltrasonicDriver.stop st ∧
      UltrasonicDriver.close (UltrasonicDriver.close st) = UltrasonicDriver.close st ∧
      InfraredDriver.stop (InfraredDriver.stop st) = InfraredDriver.stop st ∧
      InfraredDriver.close (InfraredDriver.close st) = InfraredDriver.close st ∧
      (UltrasonicDriver.stop st).closeCalls ≤ st.closeCalls + 1 ∧
      (InfraredDriver.stop st).closeCalls ≤ st.closeCalls + 1) ∧
    (∀ st : CameraDriverState,
      CameraDriver.stop (CameraDriver.stop st) ≠ CameraDriver.stop st ∧
      (CameraDriver.stop (CameraDriver.stop st)).closeCalls = st.closeCalls + 2 ∧
      (CameraDriver.close (CameraDriver.close st)).closeCalls = st.closeCalls + 2) := by
  constructor
  · intro st
    by_cases h : st.closed <;>
      simp [UltrasonicDriver.stop, UltrasonicDriver.close, InfraredDriver.stop,
        InfraredDriver.close, closeController, h]
  · intro st
    refine ⟨?_, rfl, rfl⟩
    intro h
    have := congrArg CameraDriverState.closeCalls h
    simp [CameraDriver.stop] at this

/-- Witness for C5 (amended) on fresh drivers. -/
theorem driver_close_idempotence_witness :
    (UltrasonicDriver.stop (UltrasonicDriver.stop SensorDriverState.init) =
        UltrasonicDriver.stop SensorDriverState.init ∧
      UltrasonicDriver.close (UltrasonicDriver.close SensorDriverState.init) =
        UltrasonicDriver.close SensorDriverState.init ∧
      InfraredDriver.stop (InfraredDriver.stop SensorDriverState.init) =
        InfraredDriver.stop SensorDriverState.init ∧
      InfraredDriver.close (InfraredDriver.close SensorDriverState.init) =
        InfraredDriver.close SensorDriverState.init ∧
      (UltrasonicDriver.stop SensorDriverState.init).closeCalls ≤
        SensorDriverState.init.closeCalls + 1 ∧
      (InfraredDriver.stop SensorDriverState.init).closeCalls ≤
        SensorDriverState.init.closeCalls + 1) ∧
    (CameraDriver.stop (CameraDriver.stop CameraDriverState.init) ≠
        CameraDriver.stop CameraDriverState.init ∧
      (CameraDriver.stop (CameraDriver.stop CameraDriverState.init)).closeCalls =
        CameraDriverState.init.closeCalls + 2 ∧
      (CameraDriver.close (CameraDriver.close CameraDriverState.init)).closeCalls =
        CameraDriverState.init.closeCalls + 2) :=
  ⟨driver_close_idempotence.1 SensorDriverState.init,
   driver_close_idempotence.2 CameraDriverState.init⟩

/-- C6 counterexample: `CameraDriver.start()` after `close()` does **not**
raise — it restarts the driver — so the claim "start() raises an error if
the driver has already been closed" fails for `CameraDriver`. -/
theorem camera_start_after_close_ok :
    exceptOk (CameraDriver.start (CameraDriver.close CameraDriverState.init)) = true := by
  decide

/-- C6 (amended): `UltrasonicDriver.start()` and `InfraredDriver.start()`
raise exactly when the driver is already started or already closed, and
succeed (spawning the thread) from the unstarted, not-closed state;
`CameraDriver.start()` raises exactly when already started — it has no
closed check, so start after close succeeds. -/
theorem driver_start_guards :
    (∀ st : SensorDriverState,
      ((∃ e, UltrasonicDriver.start st = .error e) ↔ (st.threadRunning ∨ st.closed)) ∧
      ((∃ e, InfraredDriver.start st = .error e) ↔ (st.threadRunning ∨ st.closed)) ∧
      (st.threadRunning = false → st.closed = false →
        UltrasonicDriver.start st = .ok { st with threadRunning := true } ∧
        InfraredDriver.start st = .ok { st with threadRunning := true })) ∧
    (∀ st : CameraDriverState,
      ((∃ e, CameraDriver.start st = .error e) ↔ st.threadRunning) ∧
      (st.threadRunning = false →
        CameraDriver.start st = .ok { st with threadRunning := true })) := by
  constructor
  · intro st
    refine ⟨?_, ?_, ?_⟩
    · by_cases h1 : st.threadRunning <;> by_cases h2 : st.closed <;>
        simp [UltrasonicDriver.start, h1, h2]
    · by_cases h1 : st.threadRunning <;> by_cases h2 : st.closed <;>
        simp [InfraredDriver.start, h1, h2]
    · intro h1 h2
      constructor <;> simp [UltrasonicDriver.start, InfraredDriver.start, h1, h2]
  · intro st
    constructor
    · by_cases h1 : st.threadRunning <;> simp [CameraDriver.start, h1]
    · intro h1
      simp [CameraDriver.start, h1]

/-- Witness for C6 (amended) on concrete states: a started ultrasonic driver
refuses `start()`, a fresh one accepts, and a closed camera driver accepts a
restart. -/
theorem driver_start_guards_witness :
    ((∃ e, UltrasonicDriver.start
        { threadRunning := true, closed := false, closeCalls := 0 } = .error e) ↔
      ((true : Bool) ∨ (false : Bool))) ∧
    (UltrasonicDriver.start SensorDriverState.init
        = .ok { SensorDriverState.init with threadRunning := true } ∧
      InfraredDriver.start SensorDriverState.init
        = .ok { SensorDriverState.init with threadRunning := true }) ∧
    CameraDriver.start { threadRunning := false, closeCalls := 1 }
        = .ok { threadRunning := true, closeCalls := 1 } :=
  ⟨(driver_start_guards.1 { threadRunning := true, closed := false, closeCalls := 0 }).1,
   (driver_start_guards.1 SensorDriverState.init).2.2 rfl rfl,
   (driver_start_guards.2 { threadRunning := false, closeCalls := 1 }).2 rfl⟩

/-- C2: `pick()` returns the value of the first entry, in ascending priority
order, whose source has a value that is either timestamp-less (always fresh)
or satisfies `now - ts <= max_age_s`; absent when no entry qualifies.  The
order scanned is the construction-time sort: ascending priority, stable on
ties (entries of equal priority keep their listed order, as Python's
`sorted` guarantees) — witnessed by the stability conjunct and by the
tied-priority scenario returning the first-listed entry's value.  In the
two-entry scenario with a stale priority-0 source (ts half a second old,
`max_age` 0.1) and a fresh priority-1 source, `pick()` skips priority 0 and
returns priority 1's command. -/
theorem mux_pick_first_fresh :
    (∀ (T : Type) (getTs : T → Option ℚ) (now : ℚ) (entries : List (SourceEntry T)),
      PriorityMux.pick getTs now entries =
        ((sortEntries entries).find? (entryFresh getTs now)).bind SourceEntry.latestVal ∧
      (sortEntries entries).Sorted (fun a b => a.priority ≤ b.priority) ∧
      List.Perm (sortEntries entries) entries) ∧
    (∀ (T : Type) (entries : List (SourceEntry T)) (a b : SourceEntry T),
      a.priority ≤ b.priority → List.Sublist [a, b] entries →
      List.Sublist [a, b] (sortEntries entries)) ∧
    PriorityMux.pick (fun _ : Nat => (none : Option ℚ)) 0
        [{ latestVal := some 1, max_age_s := 1, priority := 0 },
         { latestVal := some 2, max_age_s := 1, priority := 0 }]
      = some 1 ∧
    PriorityMux.pick (fun c : MotorCommand => some c.ts) 100
        [{ latestVal := some { throttle := 500, steer_differential := 0, ts := 100 - 1/2 },
           max_age_s := 1/10, priority := 0 },
         { latestVal := some { throttle := 100, steer_differential := 0, ts := 100 },
           max_age_s := 10, priority := 1 }]
      = some { throttle := 100, steer_differential := 0, ts := 100 } := by
  refine ⟨fun T getTs now entries =>
    ⟨pickSorted_eq_find getTs now (sortEntries entries),
     sortEntries_sorted entries, sortEntries_perm entries⟩,
    fun T entries a b hab h => sortEntries_stable hab h, ?_, ?_⟩
  · norm_num [PriorityMux.pick, sortEntries, insertByPriority, pickSorted]
  · norm_num [PriorityMux.pick, sortEntries, insertByPriority, pickSorted]

/-- Witness for C2's stability conjunct: two equal-priority entries keep
their listed order through the sort. -/
theorem mux_pick_first_fresh_witness :
    List.Sublist
      [({ latestVal := some 1, max_age_s := 1, priority := 0 } : SourceEntry Nat),
       { latestVal := some 2, max_age_s := 1, priority := 0 }]
      (sortEntries
        [{ latestVal := some 1, max_age_s := 1, priority := 0 },
         { latestVal := some 2, max_age_s := 1, priority := 0 }]) :=
  mux_pick_first_fresh.2.1 Nat
    [{ latestVal := some 1, max_age_s := 1, priority := 0 },
     { latestVal := some 2, max_age_s := 1, priority := 0 }]
    { latestVal := some 1, max_age_s := 1, priority := 0 }
    { latestVal := some 2, max_age_s := 1, priority := 0 }
    (le_refl 0) (List.Sublist.refl _)

theorem tick_motor_absent_suppressed (cfg : LoopCfg) (inp : TickInput) (st : LoopState)
    (hpick : inp.motorPick = none) (hlast : st.lastMotor = some (0, 0)) :
    (ControlLoop.tick cfg inp st).1.lastMotor = some (0, 0) ∧
    (ControlLoop.tick cfg inp st).2.drives = [] := by
  by_cases hm : cfg.motorSink ∧ cfg.motorMux
  · by_cases hf : cfg.motor_failsafe_stop
    · simp [ControlLoop.tick, resolveMotor, hpick, hlast, hm, hf, MotorCommand.stop]
    · simp [ControlLoop.tick, resolveMotor, hpick, hlast, hm, hf]
  · simp [ControlLoop.tick, resolveMotor, hpick, hlast, hm]

theorem tick_motor_failsafe_fires (cfg : LoopCfg) (inp : TickInput) (st : LoopState)
    (hsink : cfg.motorSink = true) (hmux : cfg.motorMux = true)
    (hfs : cfg.motor_failsafe_stop = true)
    (hpick : inp.motorPick = none) (hlast : st.lastMotor ≠ some (0, 0)) :
    (ControlLoop.tick cfg inp st).1.lastMotor = some (0, 0) ∧
    (ControlLoop.tick cfg inp st).2.drives = [(0, 0)] := by
  have hcond : some (0 : Int × Int) ≠ st.lastMotor := Ne.symm hlast
  simp [ControlLoop.tick, resolveMotor, hpick, hsink, hmux, hfs, MotorCommand.stop, hcond]

theorem runTicks_absent_drives (cfg : LoopCfg) :
    ∀ (inps : List TickInput) (st : LoopState),
      st.lastMotor = some (0, 0) → (∀ inp ∈ inps, inp.motorPick = none) →
      (ControlLoop.runTicks cfg st inps).2.map TickOutput.drives =
        List.replicate inps.length [] := by
  intro inps
  induction inps with
  | nil => intro st _ _; rfl
  | cons i rest ih =>
    intro st hlast habs
    have hstep := tick_motor_absent_suppressed cfg i st (habs i (by simp)) hlast
    simp only [ControlLoop.runTicks, List.map, List.length_cons, List.replicate_succ]
    rw [hstep.2, ih _ hstep.1 (fun inp h => habs inp (by simp [h]))]

/-- C1: with a motor sink, a motor mux and failsafe-stop enabled, a run of
`N >= 2` consecutive absent mux picks — starting from a last forwarded pair
other than `(0, 0)` — invokes `drive(0, 0)` on exactly the first tick of the
run and on none of the following `N - 1` ticks. -/
theorem deadman_failsafe_once (cfg : LoopCfg) (st : LoopState) (p : Int × Int)
    (inps : List TickInput)
    (hsink : cfg.motorSink = true) (hmux : cfg.motorMux = true)
    (hfs : cfg.motor_failsafe_stop = true)
    (habs : ∀ inp ∈ inps, inp.motorPick = none)
    (hlen : 2 ≤ inps.length)
    (hlast : st.lastMotor = some p) (hp : p ≠ (0, 0)) :
    (ControlLoop.runTicks cfg st inps).2.map TickOutput.drives =
      [(0, 0)] :: List.replicate (inps.length - 1) [] := by
  match inps, hlen with
  | i :: rest, _ =>
    have hne : st.lastMotor ≠ some (0, 0) := by
      rw [hlast]
      simpa using hp
    have hstep := tick_motor_failsafe_fires cfg i st hsink hmux hfs (habs i (by simp)) hne
    simp only [ControlLoop.runTicks, List.map, List.length_cons, Nat.add_sub_cancel]
    rw [hstep.2,
      runTicks_absent_drives cfg rest _ hstep.1 (fun inp h => habs inp (by simp [h]))]

/-- Witness for C1: two consecutive absent ticks after a forwarded pair
`(5, 0)` produce one `drive(0, 0)` then nothing. -/
theorem deadman_failsafe_once_witness :
    (ControlLoop.runTicks
        { motorSink := true, servoSink := false, motorMux := true,
          servoMux := false, motor_failsafe_stop := true }
        { lastMotor := some (5, 0), lastServo := none }
        [{ motorPick := none, servoPick := none, now := 0 },
         { motorPick := none, servoPick := none, now := 1 }]).2.map TickOutput.drives =
      [(0, 0)] :: List.replicate (2 - 1) [] :=
  deadman_failsafe_once
    { motorSink := true, servoSink := false, motorMux := true,
      servoMux := false, motor_failsafe_stop := true }
    { lastMotor := some (5, 0), lastServo := none } (5, 0)
    [{ motorPick := none, servoPick := none, now := 0 },
     { motorPick := none, servoPick := none, now := 1 }]
    rfl rfl rfl (by decide) (by decide) rfl (by decide)

theorem tick_suppress_all (cfg : LoopCfg) (inp : TickInput) (st : LoopState)
    (c : MotorCommand) (d : ServoCommand)
    (hm : resolveMotor cfg inp = some c)
    (hmp : st.lastMotor = some (c.throttle, c.steer_differential))
    (hs : inp.servoPick = some d)
    (hsp : st.lastServo = some (d.pan, d.tilt)) :
    ControlLoop.tick cfg inp st = (st, { drives := [], pans := [], tilts := [] }) := by
  obtain ⟨lm, ls⟩ := st
  replace hmp : lm = some (c.throttle, c.steer_differential) := hmp
  replace hsp : ls = some (d.pan, d.tilt) := hsp
  subst hmp
  subst hsp
  by_cases h1 : cfg.motorSink ∧ cfg.motorMux <;>
    by_cases h2 : cfg.servoSink ∧ cfg.servoMux <;>
      simp [ControlLoop.tick, hm, hs, h1, h2]

/-- C3: when two consecutive `tick()` calls both resolve the motor pair and
the servo pair last forwarded to the sinks, `drive`, `set_pan` and
`set_tilt` are each invoked at most once across the two ticks; and in
general a tick whose resolved pair equals the last forwarded one performs no
sink call for that channel. -/
theorem tick_write_suppression :
    (∀ (cfg : LoopCfg) (st : LoopState) (i1 i2 : TickInput)
        (c1 c2 : MotorCommand) (d1 d2 : ServoCommand) (mp sp : Int × Int),
      st.lastMotor = some mp → st.lastServo = some sp →
      resolveMotor cfg i1 = some c1 → (c1.throttle, c1.steer_differential) = mp →
      resolveMotor cfg i2 = some c2 → (c2.throttle, c2.steer_differential) = mp →
      i1.servoPick = some d1 → (d1.pan, d1.tilt) = sp →
      i2.servoPick = some d2 → (d2.pan, d2.tilt) = sp →
      (((ControlLoop.runTicks cfg st [i1, i2]).2.map TickOutput.drives).flatten.length ≤ 1 ∧
       ((ControlLoop.runTicks cfg st [i1, i2]).2.map TickOutput.pans).flatten.length ≤ 1 ∧
       ((ControlLoop.runTicks cfg st [i1, i2]).2.map TickOutput.tilts).flatten.length ≤ 1)) ∧
    (∀ (cfg : LoopCfg) (inp : TickInput) (st : LoopState) (c : MotorCommand),
      resolveMotor cfg inp = some c →
      st.lastMotor = some (c.throttle, c.steer_differential) →
      (ControlLoop.tick cfg inp st).2.drives = []) ∧
    (∀ (cfg : LoopCfg) (inp : TickInput) (st : LoopState) (d : ServoCommand),
      inp.servoPick = some d →
      st.lastServo = some (d.pan, d.tilt) →
      (ControlLoop.tick cfg inp st).2.pans = [] ∧
      (ControlLoop.tick cfg inp st).2.tilts = []) := by
  refine ⟨?_, ?_, ?_⟩
  · intro cfg st i1 i2 c1 c2 d1 d2 mp sp hm hs hr1 hr1p hr2 hr2p hs1 hs1p hs2 hs2p
    have h1 : ControlLoop.tick cfg i1 st = (st, { drives := [], pans := [], tilts := [] }) :=
      tick_suppress_all cfg i1 st c1 d1 hr1 (by rw [hr1p]; exact hm) hs1 (by rw [hs1p]; exact hs)
    have h2 : ControlLoop.tick cfg i2 st = (st, { drives := [], pans := [], tilts := [] }) :=
      tick_suppress_all cfg i2 st c2 d2 hr2 (by rw [hr2p]; exact hm) hs2 (by rw [hs2p]; exact hs)
    simp [ControlLoop.runTicks, h1, h2]
  · intro cfg inp st c hr hl
    by_cases h1 : cfg.motorSink ∧ cfg.motorMux <;>
      simp [ControlLoop.tick, hr, hl, h1]
  · intro cfg inp st d hsv hl
    by_cases h2 : cfg.servoSink ∧ cfg.servoMux <;>
      simp [ControlLoop.tick, hsv, hl, h2]

/-- Witness for C3 with concrete unchanged commands on both ticks. -/
theorem tick_write_suppression_witness :
    ((ControlLoop.runTicks
        { motorSink := true, servoSink := true, motorMux := true,
          servoMux := true, motor_failsafe_stop := true }
        { lastMotor := some (3, 1), lastServo := some (2, 2) }
        [{ motorPick := some { throttle := 3, steer_differential := 1, ts := 0 },
           servoPick := some { pan := 2, tilt := 2, ts := 0 }, now := 0 },
         { motorPick := some { throttle := 3, steer_differential := 1, ts := 1 },
           servoPick := some { pan := 2, tilt := 2, ts := 1 }, now := 1 }]).2.map
        TickOutput.drives).flatten.length ≤ 1 ∧
    ((ControlLoop.runTicks
        { motorSink := true, servoSink := true, motorMux := true,
          servoMux := true, motor_failsafe_stop := true }
        { lastMotor := some (3, 1), lastServo := some (2, 2) }
        [{ motorPick := some { throttle := 3, steer_differential := 1, ts := 0 },
           servoPick := some { pan := 2, tilt := 2, ts := 0 }, now := 0 },
         { motorPick := some { throttle := 3, steer_differential := 1, ts := 1 },
           servoPick := some { pan := 2, tilt := 2, ts := 1 }, now := 1 }]).2.map
        TickOutput.pans).flatten.length ≤ 1 ∧
    ((ControlLoop.runTicks
        { motorSink := true, servoSink := true, motorMux := true,
          servoMux := true, motor_failsafe_stop := true }
        { lastMotor := some (3, 1), lastServo := some (2, 2) }
        [{ motorPick := some { throttle := 3, steer_differential := 1, ts := 0 },
           servoPick := some { pan := 2, tilt := 2, ts := 0 }, now := 0 },
         { motorPick := some { throttle := 3, steer_differential := 1, ts := 1 },
           servoPick := some { pan := 2, tilt := 2, ts := 1 }, now := 1 }]).2.map
        TickOutput.tilts).flatten.length ≤ 1 :=
  tick_write_suppression.1
    { motorSink := true, servoSink := true, motorMux := true,
      servoMux := true, motor_failsafe_stop := true }
    { lastMotor := some (3, 1), lastServo := some (2, 2) }
    { motorPick := some { throttle := 3, steer_differential := 1, ts := 0 },
      servoPick := some { pan := 2, tilt := 2, ts := 0 }, now := 0 }
    { motorPick := some { throttle := 3, steer_differential := 1, ts := 1 },
      servoPick := some { pan := 2, tilt := 2, ts := 1 }, now := 1 }
    { throttle := 3, steer_differential := 1, ts := 0 }
    { throttle := 3, steer_differential := 1, ts := 1 }
    { pan := 2, tilt := 2, ts := 0 } { pan := 2, tilt := 2, ts := 1 }
    (3, 1) (2, 2) rfl rfl (by decide) (by decide) (by decide) (by decide)
    (by decide) (by decide) (by decide) (by decide)

/-- C4: `wait_newer` returns a present value with a timestamp different from
`last_timestamp_ns` as soon as one is observed — on the very first
observation, without waiting, if one is already there — and returns exactly
`(absent, last_timestamp_ns)` on a stop or on an elapsed timeout observed
before any such value; every returned result is of one of these two
shapes. -/
theorem wait_newer_spec :
    (∀ (T : Type) (o : StoreObs T) (rest : List (StoreObs T)) (lastTs : Int) (d : ℚ) (v : T),
      o.stopSet = false → o.value = some v → o.timestampNs ≠ lastTs →
      LatestStore.waitNewer lastTs d (o :: rest) = some (some v, o.timestampNs)) ∧
    (∀ (T : Type) (trace : List (StoreObs T)) (lastTs : Int) (d : ℚ) (r : Option T × Int),
      LatestStore.waitNewer lastTs d trace = some r →
      (∃ v ts, r = (some v, ts) ∧ ts ≠ lastTs) ∨ r = (none, lastTs)) ∧
    (∀ (T : Type) (o : StoreObs T) (rest : List (StoreObs T)) (lastTs : Int) (d : ℚ),
      o.stopSet = true →
      LatestStore.waitNewer lastTs d (o :: rest) = some (none, lastTs)) ∧
    (∀ (T : Type) (o : StoreObs T) (rest : List (StoreObs T)) (lastTs : Int) (d : ℚ),
      o.stopSet = false → (o.value = none ∨ o.timestampNs = lastTs) → d - o.now ≤ 0 →
      LatestStore.waitNewer lastTs d (o :: rest) = some (none, lastTs)) := by
  refine ⟨?_, ?_, ?_, ?_⟩
  · intro T o rest lastTs d v h1 h2 h3
    simp [LatestStore.waitNewer, h1, h2, h3]
  · intro T trace lastTs d r
    induction trace with
    | nil => intro h; cases h
    | cons o rest ih =>
      intro h
      rw [LatestStore.waitNewer] at h
      by_cases h1 : o.stopSet
      · rw [if_pos h1] at h
        injection h with h
        exact Or.inr h.symm
      · rw [if_neg h1] at h
        by_cases h2 : o.value.isSome ∧ o.timestampNs ≠ lastTs
        · rw [if_pos h2] at h
          injection h with h
          obtain ⟨v, hv⟩ := Option.isSome_iff_exists.mp h2.1
          exact Or.inl ⟨v, o.timestampNs, by rw [← h, hv], h2.2⟩
        · rw [if_neg h2] at h
          by_cases h3 : d - o.now ≤ 0
          · rw [if_pos h3] at h
            injection h with h
            exact Or.inr h.symm
          · rw [if_neg h3] at h
            exact ih h
  · intro T o rest lastTs d h1
    simp [LatestStore.waitNewer, h1]
  · intro T o rest lastTs d h1 h2 h3
    have hfresh : ¬ (o.value.isSome ∧ o.timestampNs ≠ lastTs) := by
      rcases h2 with h2 | h2 <;> simp [h2]
    simp [LatestStore.waitNewer, h1, hfresh, h3]

/-- Witness for C4: a fresh value already in the slot is returned on the
first observation; a stop observation and an elapsed-timeout observation
each return `(absent, last_timestamp_ns)`. -/
theorem wait_newer_spec_witness :
    LatestStore.waitNewer 7 (1/2)
        [{ stopSet := false, value := some 42, timestampNs := 9, now := 0 }]
      = some (some (42 : Nat), 9) ∧
    LatestStore.waitNewer 7 (1/2)
        [{ stopSet := true, value := some 42, timestampNs := 9, now := 0 }]
      = some (none, 7) ∧
    LatestStore.waitNewer (T := Nat) 7 (1/2)
        [{ stopSet := false, value := none, timestampNs := 7, now := 1 }]
      = some (none, 7) :=
  ⟨wait_newer_spec.1 Nat { stopSet := false, value := some 42, timestampNs := 9, now := 0 }
      [] 7 (1/2) 42 rfl rfl (by decide),
   wait_newer_spec.2.2.1 Nat { stopSet := true, value := some 42, timestampNs := 9, now := 0 }
      [] 7 (1/2) rfl,
   wait_newer_spec.2.2.2 Nat { stopSet := false, value := none, timestampNs := 7, now := 1 }
      [] 7 (1/2) rfl (Or.inl rfl) (by norm_num)⟩

theorem ultra_publishedSeqs_gt :
    ∀ (rs : List (Option ℚ)) (st : UltraState) (s : Nat),
      s ∈ UltrasonicDriver.publishedSeqs st rs → st.seq < s := by
  intro rs
  induction rs with
  | nil => intro st s h; cases h
  | cons r rest ih =>
    intro st s h
    match r with
    | none => exact ih st s h
    | some dist =>
      rw [UltrasonicDriver.publishedSeqs] at h
      rcases List.mem_cons.mp h with rfl | h
      · omega
      · have := ih { seq := st.seq + 1, latest := some dist } s h
        simp only at this
        omega

theorem ultra_publishedSeqs_chain (rs : List (Option ℚ)) :
    ∀ st : UltraState, List.Chain' (· < ·) (UltrasonicDriver.publishedSeqs st rs) := by
  induction rs with
  | nil => intro st; exact List.chain'_nil
  | cons r rest ih =>
    intro st
    match r with
    | none => exact ih st
    | some dist =>
      rw [UltrasonicDriver.publishedSeqs, List.chain'_cons']
      refine ⟨?_, ih _⟩
      intro y hy
      have hmem := List.mem_of_mem_head? hy
      have := ultra_publishedSeqs_gt rest { seq := st.seq + 1, latest := some dist } y hmem
      simp only at this
      omega

theorem ir_publishedSeqs_gt :
    ∀ (rs : List (Nat × Nat × Nat)) (st : IrState) (s : Nat),
      s ∈ InfraredDriver.publishedSeqs st rs → st.seq < s := by
  intro rs
  induction rs with
  | nil => intro st s h; cases h
  | cons r rest ih =>
    intro st s h
    match r with
    | (l, m, rr) =>
      rw [InfraredDriver.publishedSeqs] at h
      rcases List.mem_cons.mp h with rfl | h
      · omega
      · have := ih (InfraredDriver.pollStep st l m rr) s h
        simp only [InfraredDriver.pollStep] at this
        omega

theorem ir_publishedSeqs_chain (rs : List (Nat × Nat × Nat)) :
    ∀ st : IrState, List.Chain' (· < ·) (InfraredDriver.publishedSeqs st rs) := by
  induction rs with
  | nil => intro st; exact List.chain'_nil
  | cons r rest ih =>
    intro st
    match r with
    | (l, m, rr) =>
      rw [InfraredDriver.publishedSeqs, List.chain'_cons']
      refine ⟨?_, ih _⟩
      intro y hy
      have hmem := List.mem_of_mem_head? hy
      have := ir_publishedSeqs_gt rest (InfraredDriver.pollStep st l m rr) y hmem
      simp only [InfraredDriver.pollStep] at this
      omega

theorem waitNextGo_advanced {L : Type} :
    ∀ (trace : List (DriverObs L)) (lastSeq : Nat) (d : Option ℚ) (o : DriverObs L),
      waitNextGo lastSeq d trace = some (.advanced o) →
      o ∈ trace ∧ o.stopSet = false ∧ o.seq ≠ lastSeq := by
  intro trace
  induction trace with
  | nil => intro _ _ o h; cases h
  | cons ob rest ih =>
    intro lastSeq d o h
    rw [waitNextGo] at h
    by_cases h1 : ob.stopSet
    · rw [if_pos h1] at h
      injection h with h
      cases h
    · rw [if_neg h1] at h
      by_cases h2 : ob.seq ≠ lastSeq
      · rw [if_pos h2] at h
        injection h with h
        injection h with h
        subst h
        exact ⟨List.mem_cons_self _ _, by simpa using h1, h2⟩
      · rw [if_neg h2] at h
        by_cases h3 : deadlineElapsed d ob.now
        · rw [if_pos h3] at h
          injection h with h
          cases h
        · rw [if_neg h3] at h
          have := ih lastSeq d o h
          exact ⟨List.mem_cons_of_mem _ this.1, this.2⟩

theorem waitNextFrom_some {L : Type} (n : Nat) (d : Option ℚ)
    (trace : List (DriverObs L)) (w : WaitOutcome L)
    (h : waitNextFrom (some n) d trace = some w) :
    waitNextGo n d trace = some w := by
  match trace with
  | [] => cases h
  | o :: rest => simpa [waitNextFrom] using h

/-- C7: the `seq` values published by the ultrasonic and infrared polling
loops are strictly increasing (each successful poll cycle increments by
one); a `wait_next(last_seq=N)` call that exits because `seq` advanced
(neither stop nor timeout) returns a sample with `seq > N`, provided — as
monotonicity guarantees for a previously published `N` — every observed
`seq` is at least `N`; a call that times out returns the best-effort latest
value unchanged. -/
theorem seq_monotonic_wait_next :
    (∀ (st : UltraState) (rs : List (Option ℚ)),
      List.Chain' (· < ·) (UltrasonicDriver.publishedSeqs st rs)) ∧
    (∀ (st : IrState) (rs : List (Nat × Nat × Nat)),
      List.Chain' (· < ·) (InfraredDriver.publishedSeqs st rs)) ∧
    (∀ (lastSeq : Nat) (d : Option ℚ) (trace : List (DriverObs InfraredSample))
        (o : DriverObs InfraredSample),
      (∀ ob ∈ trace, lastSeq ≤ ob.seq) →
      (∀ ob ∈ trace, ∀ s, ob.latest = some s → s.seq = ob.seq) →
      waitNextFrom (some lastSeq) d trace = some (.advanced o) →
      lastSeq < o.seq ∧
      ∀ s, InfraredDriver.waitNextValue (.advanced o) = some s → lastSeq < s.seq) ∧
    (∀ (lastSeq : Nat) (d : Option ℚ) (trace : List (DriverObs ℚ)) (o : DriverObs ℚ),
      (∀ ob ∈ trace, lastSeq ≤ ob.seq) →
      waitNextFrom (some lastSeq) d trace = some (.advanced o) →
      ∀ p, UltrasonicDriver.waitNextValue (.advanced o) = some p → lastSeq < p.1) ∧
    (∀ o : DriverObs InfraredSample,
      InfraredDriver.waitNextValue (.timedOut o) = o.latest) ∧
    (∀ o : DriverObs ℚ,
      UltrasonicDriver.waitNextValue (.timedOut o) =
        o.latest.map (fun dist => (o.seq, dist))) := by
  refine ⟨fun st rs => ultra_publishedSeqs_chain rs st,
          fun st rs => ir_publishedSeqs_chain rs st, ?_, ?_, fun o => rfl, fun o => rfl⟩
  · intro lastSeq d trace o hmono hcons h
    obtain ⟨hmem, _hstop, hne⟩ := waitNextGo_advanced trace lastSeq d o (waitNextFrom_some _ _ _ _ h)
    have hle := hmono o hmem
    refine ⟨by omega, ?_⟩
    intro s hs
    have := hcons o hmem s hs
    omega
  · intro lastSeq d trace o hmono h
    obtain ⟨hmem, _hstop, hne⟩ := waitNextGo_advanced trace lastSeq d o (waitNextFrom_some _ _ _ _ h)
    have hle := hmono o hmem
    intro p hp
    obtain ⟨dist, _hd, hpp⟩ := Option.map_eq_some'.mp hp
    rw [← hpp]
    simp only
    omega

/-- Witness for C7: a single observation with `seq = 5` past `last_seq = 3`
exits as `advanced` and yields a sample with `seq > 3`. -/
theorem seq_monotonic_wait_next_witness :
    3 < ({ stopSet := false, seq := 5,
           latest := some { left := 1, middle := 0, right := 1, bits := 5, seq := 5 },
           now := 0 } : DriverObs InfraredSample).seq ∧
    ∀ s, InfraredDriver.waitNextValue
        (.advanced { stopSet := false, seq := 5,
                     latest := some { left := 1, middle := 0, right := 1, bits := 5, seq := 5 },
                     now := 0 }) = some s → 3 < s.seq :=
  seq_monotonic_wait_next.2.2.1 3 none
    [{ stopSet := false, seq := 5,
       latest := some { left := 1, middle := 0, right := 1, bits := 5, seq := 5 },
       now := 0 }]
    { stopSet := false, seq := 5,
      latest := some { left := 1, middle := 0, right := 1, bits := 5, seq := 5 },
      now := 0 }
    (by
      intro ob hob
      rw [List.mem_singleton] at hob
      subst hob
      decide)
    (by
      intro ob hob s hs
      rw [List.mem_singleton] at hob
      subst hob
      cases hs
      rfl)
    rfl

end Carbot
